import Mathlib

/-!
Shallow embedding of the cortex-memory repository (Python) in Lean 4.

Conventions used throughout this development:
* SQLite tables become Lean lists of records; a row's `TEXT`/`REAL`/`INTEGER`
  columns become `String` / `ℚ` / `Nat`, nullable columns become `Option`.
* Python floats are modelled by rationals `ℚ` (the decay logic is pure
  field arithmetic and comparison, no rounding is relevant to the claims).
* `CURRENT_TIMESTAMP` and `datetime.utcnow()` become an explicit `now : Nat`
  argument; ISO-8601 string comparison on timestamps is order-isomorphic to
  comparison on `Nat`.
* `uuid4` id generation becomes a `next_id` counter threaded through the
  database state (only freshness of ids matters to the code).
* JSON metadata dictionaries become insertion-ordered association lists
  (`Dict`), with Python `dict.update` / truthiness semantics spelled out.
-/

set_option autoImplicit false

/-- A JSON scalar value as stored in the metadata columns. -/
inductive JVal where
  | jnull
  | jbool (b : Bool)
  | jnum (q : ℚ)
  | jstr (s : String)
  deriving DecidableEq, Repr

/-- Python truthiness of a JSON value (`None`, `False`, `0`, `""` are falsy). -/
def JVal.truthy : JVal → Bool
  | .jnull => false
  | .jbool b => b
  | .jnum q => q != 0
  | .jstr s => s != ""

/-- A JSON object / Python dict: insertion-ordered association list. -/
abbrev Dict := List (String × JVal)

/-- Python `d[k]` lookup (first binding wins; keys are kept unique by `dictInsert`). -/
def dictGet (m : Dict) (k : String) : Option JVal :=
  match m.find? (fun p => p.1 == k) with
  | some p => some p.2
  | none => none

/-- Python `d[k] = v`: overwrite in place (keeping the key's original position),
or append a fresh binding at the end. -/
def dictInsert (m : Dict) (k : String) (v : JVal) : Dict :=
  if m.any (fun p => p.1 == k) then
    m.map (fun p => if p.1 == k then (k, v) else p)
  else m ++ [(k, v)]

/-- Python `old.update(incoming)`: every incoming key shallow-overwrites,
keys absent from `incoming` are preserved. -/
def dictUpdate (old incoming : Dict) : Dict :=
  incoming.foldl (fun acc p => dictInsert acc p.1 p.2) old

/-- Python `str.lower()` / SQL `LOWER(...)`: per-character lowering (written
over the character list so that it is kernel-computable). -/
def strLower (s : String) : String :=
  ⟨s.data.map Char.toLower⟩

/-- Python `str.upper()`: per-character uppercasing. -/
def strUpper (s : String) : String :=
  ⟨s.data.map Char.toUpper⟩

/-- Whitespace tokenisation of a character list: split on runs of spaces,
dropping empty tokens (the behaviour of Python `str.split()` with no
argument, modelled on the space character). -/
def wsSplit : List Char → List (List Char)
  | [] => []
  | c :: cs =>
    let rest := wsSplit cs
    if c = ' ' then rest
    else
      match cs with
      | [] => [[c]]
      | c2 :: _ =>
        if c2 = ' ' then [c] :: rest
        else
          match rest with
          | [] => [[c]]
          | t :: ts => (c :: t) :: ts

/-- A row of the `memories` table (src/cortex_memory/db/store.py, schema use sites). -/
structure MemRow where
  id : Nat
  content : String
  memory_type : String
  source : Option String
  importance : ℚ
  decay_factor : Option ℚ
  metadata : Dict
  archived : Bool
  consolidated_into : Option Nat
  created_at : Nat
  updated_at : Nat
  deriving DecidableEq, Repr

namespace Store

/-- `update_importance` (store.py): `UPDATE memories SET importance = ?,
updated_at = CURRENT_TIMESTAMP WHERE id = ?`. -/
def update_importance (now : Nat) (st : List MemRow) (memory_id : Nat) (importance : ℚ) :
    List MemRow :=
  st.map (fun m =>
    if m.id == memory_id then { m with importance := importance, updated_at := now } else m)

/-- `archive_memory` (store.py): `UPDATE memories SET archived = 1,
consolidated_into = ?, updated_at = CURRENT_TIMESTAMP WHERE id = ?`. -/
def archive_memory (now : Nat) (st : List MemRow) (memory_id : Nat)
    (consolidated_into : Option Nat) : List MemRow :=
  st.map (fun m =>
    if m.id == memory_id then
      { m with archived := true, consolidated_into := consolidated_into, updated_at := now }
    else m)

end Store

/-- `meta.get("protected")` truthiness test from `apply_decay` (consolidate.py). -/
def isProtected (m : MemRow) : Bool :=
  match dictGet m.metadata "protected" with
  | some v => v.truthy
  | none => false

/-- `effective_rate = row["decay_factor"] or decay_rate` (consolidate.py line 38):
Python `or`, so a `NULL` *or zero* stored decay factor falls back to the global rate. -/
def effectiveRate (m : MemRow) (decay_rate : ℚ) : ℚ :=
  match m.decay_factor with
  | some d => if d == 0 then decay_rate else d
  | none => decay_rate

/-- Preview entry appended to `decayed` / `will_archive` in `apply_decay`
(content truncated to its first 100 characters, `row["content"][:100]`). -/
structure PreviewEntry where
  id : Nat
  content : String
  old_importance : ℚ
  new_importance : ℚ
  deriving DecidableEq, Repr

/-- Preview entry appended to the `protected` list in `apply_decay`. -/
structure ProtEntry where
  id : Nat
  content : String
  importance : ℚ
  deriving DecidableEq, Repr

/-- The result dict of `apply_decay`. The Python dict key `"protected"` is the
field `protected_preview` here (`protected` is a Lean keyword). The three
list-valued keys are present only when `dry_run` is true, hence `Option`. -/
structure DecayResult where
  dry_run : Bool
  decayed_count : Nat
  archived_count : Nat
  protected_count : Nat
  would_decay : Option (List PreviewEntry)
  would_archive : Option (List PreviewEntry)
  protected_preview : Option (List ProtEntry)
  deriving DecidableEq, Repr

/-- The store-mutation half of one iteration of the `apply_decay` loop body:
protected rows are skipped; otherwise the row is archived (when the decayed
importance falls strictly below `min_importance`) or its importance is
rewritten — in both cases only when `dry_run` is false. -/
def decayStateStep (decay_rate min_importance : ℚ) (dry_run : Bool) (now : Nat)
    (st : List MemRow) (row : MemRow) : List MemRow :=
  if isProtected row then st
  else
    let new_importance := row.importance * effectiveRate row decay_rate
    if new_importance < min_importance then
      if dry_run then st else Store.archive_memory now st row.id none
    else
      if dry_run then st else Store.update_importance now st row.id new_importance

/-- The list-accumulation half of one iteration of the `apply_decay` loop body:
append the row's preview entry to `protected` / `will_archive` / `decayed`.
This half of the loop body depends only on the scanned row, never on the
store, and is unaffected by `dry_run` (the appends happen before the
`if not dry_run` mutation guards in the source). -/
def partStep (decay_rate min_importance : ℚ)
    (acc : List ProtEntry × List PreviewEntry × List PreviewEntry) (row : MemRow) :
    List ProtEntry × List PreviewEntry × List PreviewEntry :=
  let (prot, dec, arch) := acc
  if isProtected row then
    (prot ++ [⟨row.id, row.content.take 100, row.importance⟩], dec, arch)
  else
    let new_importance := row.importance * effectiveRate row decay_rate
    if new_importance < min_importance then
      (prot, dec, arch ++ [⟨row.id, row.content.take 100, row.importance, new_importance⟩])
    else
      (prot, dec ++ [⟨row.id, row.content.take 100, row.importance, new_importance⟩], arch)

/-- The protected / decayed / will-archive partition computed by the
`apply_decay` loop over the snapshot of non-archived rows. -/
def decayPartition (decay_rate min_importance : ℚ) (rows : List MemRow) :
    List ProtEntry × List PreviewEntry × List PreviewEntry :=
  rows.foldl (partStep decay_rate min_importance) ([], [], [])

/-- `apply_decay` (consolidate.py lines 8–74). The Python loop interleaves the
store mutations and the list appends; since the two touch disjoint data
(the mutations never feed back into the scanned snapshot, and the appended
entries are built from the snapshot row alone), the loop is rendered as two
folds over the same snapshot. Returns the final `memories` table and the
result dict. -/
def apply_decay (st : List MemRow) (decay_rate min_importance : ℚ) (dry_run : Bool)
    (now : Nat) : List MemRow × DecayResult :=
  let rows := st.filter (fun m => !m.archived)
  let st1 := rows.foldl (decayStateStep decay_rate min_importance dry_run now) st
  let part := decayPartition decay_rate min_importance rows
  (st1,
    { dry_run := dry_run
      decayed_count := part.2.1.length
      archived_count := part.2.2.length
      protected_count := part.1.length
      would_decay := if dry_run then some part.2.1 else none
      would_archive := if dry_run then some part.2.2 else none
      protected_preview := if dry_run then some part.1 else none })

/-- An open-loop proposal inside an analysis result / a loop snapshot inside a
prepared context (analyze.py JSON schema). -/
structure AnalysisLoop where
  summary : String
  priority : String
  follow_up_question : Option String
  deriving DecidableEq, Repr

/-- A selected-memory entry inside an analysis result (analyze.py JSON schema). -/
structure SelectedMemory where
  content : String
  reason : Option String
  deriving DecidableEq, Repr

/-- The parsed JSON analysis result returned by the external model
(analyze.py `ANALYSIS_PROMPT` schema; `result.get` defaults absorbed into
typed fields). -/
structure AnalysisResult where
  context_summary : String
  open_loops : List AnalysisLoop
  selected_memories : List SelectedMemory
  topic_index : String
  priority_topics : String
  deriving DecidableEq, Repr

/-- A row of the `entities` table. -/
structure Entity where
  id : Nat
  name : String
  entity_type : String
  summary : Option String
  metadata : Dict
  last_referenced : Nat
  deriving DecidableEq, Repr

/-- A row of the `entity_mentions` table. -/
structure Mention where
  id : Nat
  entity_id : Nat
  memory_id : Nat
  context : Option String
  deriving DecidableEq, Repr

/-- A row of the `open_loops` table. -/
structure OpenLoop where
  id : Nat
  summary : String
  priority : String
  follow_up_question : Option String
  source_memory_id : Option Nat
  metadata : Dict
  resolved_at : Option Nat
  created_at : Nat
  deriving DecidableEq, Repr

/-- A row of the `conversations` table. -/
structure Conversation where
  id : Nat
  session_key : Option String
  channel : Option String
  started_at : Nat
  ended_at : Option Nat
  summary : Option String
  analyzed : Bool
  deriving DecidableEq, Repr

/-- A row of the `prepared_contexts` table. -/
structure PreparedCtx where
  id : Nat
  conversation_id : Nat
  context_summary : String
  open_loops_json : List AnalysisLoop
  selected_memories_json : List SelectedMemory
  topic_index : String
  priority_topics : String
  prepared_prompt : String
  created_at : Nat
  expires_at : Nat
  used_at : Option Nat
  deriving DecidableEq, Repr

/-- The relational (SQLite) database state: one list per table, plus the
id-generation counter standing in for `uuid4`. -/
structure Db where
  memories : List MemRow
  entities : List Entity
  entity_mentions : List Mention
  open_loops : List OpenLoop
  conversations : List Conversation
  prepared_contexts : List PreparedCtx
  next_id : Nat
  deriving DecidableEq, Repr

/-- A record of the ChromaDB mirror collection (vector/embeddings.py); only
its identity and document are relevant here. -/
structure VecRecord where
  id : Nat
  content : String
  deriving DecidableEq, Repr

namespace Vec

/-- `delete_memory` (vector/embeddings.py lines 67–69): `collection.delete(ids=[memory_id])`.
Note: no caller in the repository ever invokes this function. -/
def delete_memory (vstore : List VecRecord) (memory_id : Nat) : List VecRecord :=
  vstore.filter (fun r => r.id != memory_id)

end Vec

/-- Modelled from the spec: the closed set of memory types. `schema.sql` is not
part of the provided sources (only `SCHEMA_PATH` referencing it is), so the
type domain enforced at persistence time is taken from spec §3
("type ∈ \x7bconversation, observation, decision, personality, action_item, fact\x7d")
together with §7's ValidationError ("malformed input (unknown type/priority);
rejected before any persistence"). -/
def validMemoryType (t : String) : Bool :=
  t == "conversation" || t == "observation" || t == "decision" ||
  t == "personality" || t == "action_item" || t == "fact"

/-- Modelled from the spec: the closed set of open-loop priorities, spec §3
("priority ∈ \x7bhigh, medium, low\x7d") with §7's ValidationError; the enforcing
`schema.sql` is not part of the provided sources. -/
def validPriority (p : String) : Bool :=
  p == "high" || p == "medium" || p == "low"

namespace Store

/-- `get_memory` (store.py): `SELECT * FROM memories WHERE id = ?`. -/
def get_memory (db : Db) (memory_id : Nat) : Option MemRow :=
  db.memories.find? (fun m => m.id == memory_id)

/-- `delete_memory` (store.py lines 120–126): deletes the `entity_mentions`
rows referencing the memory, then the memory row. The vector mirror is not
touched here. -/
def delete_memory (db : Db) (memory_id : Nat) : Db :=
  { db with
    entity_mentions := db.entity_mentions.filter (fun em => em.memory_id != memory_id),
    memories := db.memories.filter (fun m => m.id != memory_id) }

/-- `add_memory` (store.py lines 43–52): inserts a row with a fresh id;
columns not in the INSERT take their schema defaults. The memory-type domain
check is the spec-modelled `validMemoryType` (see its doc comment); on a
violation the INSERT fails before the commit, leaving the table unchanged. -/
def add_memory (db : Db) (now : Nat) (content : String) (memory_type : String)
    (source : Option String) (importance : ℚ) (metadata : Option Dict) :
    Db × Except String Nat :=
  if validMemoryType memory_type then
    let mid := db.next_id
    ({ db with
        memories := db.memories ++
          [{ id := mid, content := content, memory_type := memory_type, source := source,
             importance := importance, decay_factor := none, metadata := metadata.getD [],
             archived := false, consolidated_into := none, created_at := now,
             updated_at := now }],
        next_id := db.next_id + 1 }, Except.ok mid)
  else (db, Except.error "ValidationError: unknown memory type")

/-- `add_open_loop` (store.py lines 208–217), with the spec-modelled
`validPriority` domain check (see its doc comment). -/
def add_open_loop (db : Db) (now : Nat) (summary priority : String)
    (follow_up_question : Option String) (source_memory_id : Option Nat)
    (metadata : Option Dict) : Db × Except String Nat :=
  if validPriority priority then
    let lid := db.next_id
    ({ db with
        open_loops := db.open_loops ++
          [{ id := lid, summary := summary, priority := priority,
             follow_up_question := follow_up_question,
             source_memory_id := source_memory_id, metadata := metadata.getD [],
             resolved_at := none, created_at := now }],
        next_id := db.next_id + 1 }, Except.ok lid)
  else (db, Except.error "ValidationError: unknown priority")

/-- The `CASE priority WHEN 'high' THEN 1 WHEN 'medium' THEN 2 WHEN 'low' THEN 3 END`
expression in `get_open_loops`; an unknown priority yields SQL NULL. -/
def priorityCaseRank (p : String) : Option Nat :=
  if p == "high" then some 1 else if p == "medium" then some 2
  else if p == "low" then some 3 else none

/-- Sort key for `ORDER BY CASE ... END`: SQLite sorts NULL before every
number in ascending order, modelled by mapping NULL to 0. -/
def loopSortKey (l : OpenLoop) : Nat :=
  (priorityCaseRank l.priority).getD 0

/-- The `ORDER BY CASE ... END, created_at DESC` comparator. -/
def loopOrder (a b : OpenLoop) : Bool :=
  loopSortKey a < loopSortKey b ||
    (loopSortKey a == loopSortKey b && b.created_at ≤ a.created_at)

/-- `get_open_loops` (store.py lines 220–228): unresolved loops ordered by
priority rank then newest first, limited. -/
def get_open_loops (loops : List OpenLoop) (limit : Nat) : List OpenLoop :=
  (((loops.filter (fun l => l.resolved_at.isNone)).mergeSort loopOrder).take limit)

/-- `resolve_loop` (store.py lines 231–235): `UPDATE open_loops SET
resolved_at = CURRENT_TIMESTAMP WHERE id = ?` — unconditionally, with no
`resolved_at IS NULL` guard. -/
def resolve_loop (loops : List OpenLoop) (now : Nat) (loop_id : Nat) : List OpenLoop :=
  loops.map (fun l => if l.id == loop_id then { l with resolved_at := some now } else l)

/-- `add_entity` (store.py lines 145–154). -/
def add_entity (db : Db) (now : Nat) (name entity_type : String) (summary : Option String)
    (metadata : Option Dict) : Db × Nat :=
  let eid := db.next_id
  ({ db with
      entities := db.entities ++
        [{ id := eid, name := name, entity_type := entity_type, summary := summary,
           metadata := metadata.getD [], last_referenced := now }],
      next_id := db.next_id + 1 }, eid)

/-- `get_entity_by_name` (store.py lines 157–161): `WHERE LOWER(name) = LOWER(?)`,
first match. -/
def get_entity_by_name (entities : List Entity) (name : String) : Option Entity :=
  entities.find? (fun e => strLower e.name == strLower name)

/-- Apply `f` to the entity rows matching `entity_id` (the body of the
`UPDATE entities ... WHERE id = ?` statements). -/
def touchEntity (db : Db) (entity_id : Nat) (f : Entity → Entity) : Db :=
  { db with entities := db.entities.map (fun e => if e.id == entity_id then f e else e) }

/-- `update_entity` (store.py lines 164–174): a summary update, a metadata
update, and — when neither was given — a bare `last_referenced` touch. -/
def update_entity (db : Db) (now : Nat) (entity_id : Nat) (summary : Option String)
    (metadata : Option Dict) : Db :=
  let db1 := match summary with
    | some s => touchEntity db entity_id
        (fun e => { e with summary := some s, last_referenced := now })
    | none => db
  let db2 := match metadata with
    | some m => touchEntity db1 entity_id
        (fun e => { e with metadata := m, last_referenced := now })
    | none => db1
  match summary, metadata with
  | none, none => touchEntity db2 entity_id (fun e => { e with last_referenced := now })
  | _, _ => db2

/-- `add_entity_mention` (store.py lines 177–184). -/
def add_entity_mention (db : Db) (now : Nat) (entity_id memory_id : Nat)
    (context : Option String) : Db × Nat :=
  let mid := db.next_id
  let db1 := { db with
    entity_mentions := db.entity_mentions ++
      [{ id := mid, entity_id := entity_id, memory_id := memory_id, context := context }],
    next_id := db.next_id + 1 }
  (touchEntity db1 entity_id (fun e => { e with last_referenced := now }), mid)

/-- `start_conversation` (store.py lines 248–254). -/
def start_conversation (db : Db) (now : Nat) (session_key channel : Option String) :
    Db × Nat :=
  let cid := db.next_id
  ({ db with
      conversations := db.conversations ++
        [{ id := cid, session_key := session_key, channel := channel, started_at := now,
           ended_at := none, summary := none, analyzed := false }],
      next_id := db.next_id + 1 }, cid)

/-- `end_conversation` (store.py lines 257–261). -/
def end_conversation (db : Db) (now : Nat) (conversation_id : Nat)
    (summary : Option String) : Db :=
  { db with conversations := db.conversations.map (fun c =>
      if c.id == conversation_id then { c with ended_at := some now, summary := summary }
      else c) }

/-- `mark_analyzed` (store.py lines 271–275). -/
def mark_analyzed (db : Db) (conversation_id : Nat) : Db :=
  { db with conversations := db.conversations.map (fun c =>
      if c.id == conversation_id then { c with analyzed := true } else c) }

/-- `save_prepared_context` (store.py lines 280–291): inserts a prepared
context expiring `ttl_days` days (86400 seconds each) from now. -/
def save_prepared_context (db : Db) (now : Nat) (conversation_id : Nat)
    (context_summary : String) (open_loops_json : List AnalysisLoop)
    (selected_memories_json : List SelectedMemory) (topic_index priority_topics : String)
    (prepared_prompt : String) (ttl_days : Nat) : Db × Nat :=
  let pid := db.next_id
  ({ db with
      prepared_contexts := db.prepared_contexts ++
        [{ id := pid, conversation_id := conversation_id, context_summary := context_summary,
           open_loops_json := open_loops_json,
           selected_memories_json := selected_memories_json, topic_index := topic_index,
           priority_topics := priority_topics, prepared_prompt := prepared_prompt,
           created_at := now, expires_at := now + ttl_days * 86400, used_at := none }],
      next_id := db.next_id + 1 }, pid)

/-- One step of selecting the row with the greatest `created_at`
(`ORDER BY created_at DESC LIMIT 1`; the first-listed row wins a tie,
matching one permissible SQLite answer — ties are not ordered by the SQL). -/
def newestStep (best : Option PreparedCtx) (c : PreparedCtx) : Option PreparedCtx :=
  match best with
  | none => some c
  | some b => if b.created_at < c.created_at then some c else some b

/-- `get_unused_context` (store.py lines 294–301): `WHERE used_at IS NULL AND
expires_at > now ORDER BY created_at DESC LIMIT 1`. -/
def get_unused_context (ctxs : List PreparedCtx) (now : Nat) : Option PreparedCtx :=
  (ctxs.filter (fun c => c.used_at.isNone && decide (now < c.expires_at))).foldl
    newestStep none

end Store

/-- `delete_memory_endpoint` (service.py lines 66–73): 404 when the memory is
missing, otherwise the relational `delete_memory`. The endpoint never calls
`Vec.delete_memory`, so the vector store component is returned unchanged on
both paths (this is the behaviour under scrutiny in claim C3). -/
inductive DeleteResponse where
  | deleted (id : Nat)
  | httpError (status : Nat) (detail : String)
  deriving DecidableEq, Repr

/-- See `DeleteResponse`; the endpoint itself. -/
def delete_memory_endpoint (db : Db) (vstore : List VecRecord) (memory_id : Nat) :
    Db × List VecRecord × DeleteResponse :=
  match Store.get_memory db memory_id with
  | none => (db, vstore, .httpError 404 "Memory not found")
  | some _ => (Store.delete_memory db memory_id, vstore, .deleted memory_id)

/-- Python truthiness of an optional string (`if summary:`). -/
def truthyStr : Option String → Bool
  | some s => s != ""
  | none => false

/-- Python truthiness of an optional dict (`if metadata:`). -/
def truthyDict : Option Dict → Bool
  | some m => !m.isEmpty
  | none => false

/-- `ingest_entity` (pipeline/ingest.py lines 22–36): case-insensitive lookup;
on a hit, a truthy summary and truthy metadata each trigger an update (the
metadata merge is `old.update(incoming)` on the metadata fetched with the
lookup); on a miss, a fresh entity is inserted; a truthy `memory_id` adds a
mention either way. -/
def ingest_entity (db : Db) (now : Nat) (name entity_type : String)
    (summary : Option String) (metadata : Option Dict) (memory_id : Option Nat)
    (mention_context : Option String) : Db × Nat :=
  match Store.get_entity_by_name db.entities name with
  | some existing =>
      let eid := existing.id
      let db1 := if truthyStr summary then Store.update_entity db now eid summary none else db
      let db2 := if truthyDict metadata then
          Store.update_entity db1 now eid none
            (some (dictUpdate existing.metadata (metadata.getD [])))
        else db1
      match memory_id with
      | some mid => ((Store.add_entity_mention db2 now eid mid mention_context).1, eid)
      | none => (db2, eid)
  | none =>
      let (db1, eid) := Store.add_entity db now name entity_type summary metadata
      match memory_id with
      | some mid => ((Store.add_entity_mention db1 now eid mid mention_context).1, eid)
      | none => (db1, eid)

/-- Specification of the merge `ingest_entity` performs on a found entity,
written from the claim's wording: a non-empty incoming summary replaces the
stored one, incoming metadata keys shallow-overwrite the stored map with
absent keys preserved, and `last_referenced` is touched when anything was
merged. -/
def merged_entity_spec (now : Nat) (e : Entity) (summary : Option String)
    (metadata : Option Dict) : Entity :=
  { e with
    summary := if truthyStr summary then summary else e.summary
    metadata := if truthyDict metadata then dictUpdate e.metadata (metadata.getD [])
      else e.metadata
    last_referenced := if truthyStr summary || truthyDict metadata then now
      else e.last_referenced }

/-- `build_prepared_prompt` (analyze.py lines 117–148): the deterministic
rendering of an analysis result, section by section in source order. -/
def build_prepared_prompt (analysis : AnalysisResult) : String :=
  let loopParts : List String :=
    if analysis.open_loops.isEmpty then []
    else
      ["🔄 OPEN LOOPS - FOLLOW UP ON THESE FIRST:"]
        ++ analysis.open_loops.foldl (fun acc loop =>
             acc ++ ["• " ++ strUpper loop.summary ++ " [" ++ loop.priority ++ "]"]
               ++ (match loop.follow_up_question with
                   | some q => if q != "" then ["  Ask: \"" ++ q ++ "\""] else []
                   | none => [])) []
        ++ [""]
  let summaryParts : List String :=
    if analysis.context_summary != "" then
      ["🧠 KEY CONTEXT FOR THIS SESSION:", analysis.context_summary, ""]
    else []
  let priorityParts : List String :=
    if analysis.priority_topics != "" then
      ["Priority Topics: " ++ analysis.priority_topics, ""]
    else []
  let topicParts : List String :=
    if analysis.topic_index != "" then
      ["📚 COMPREHENSIVE TOPIC INDEX: " ++ analysis.topic_index, ""]
    else []
  let memoryParts : List String :=
    if analysis.selected_memories.isEmpty then []
    else
      ["Relevant Memories:"]
        ++ analysis.selected_memories.foldl (fun acc mem =>
             acc ++ ["• " ++ mem.content]
               ++ (match mem.reason with
                   | some r => if r != "" then ["  (" ++ r ++ ")"] else []
                   | none => [])) []
        ++ [""]
  String.intercalate "\n"
    (loopParts ++ summaryParts ++ priorityParts ++ topicParts ++ memoryParts)

/-- The value `run_analysis` returns: the structured error dict, Python `None`,
or the success dict. -/
inductive RunOutcome where
  | errorResult (message : String)
  | noneResult
  | ok (context_id : Nat) (analysis : AnalysisResult) (prepared_prompt : String)
  deriving DecidableEq, Repr

/-- `run_analysis` (analyze.py lines 151–193). The external call
(`call_llm`, i.e. provider request plus `_parse_json`) is modelled by its
outcome `llm`: `Except.error e` for any exception raised by the provider call
or by JSON parsing of a malformed response, `Except.ok none` for a falsy
parsed result, `Except.ok (some result)` for a truthy parsed result. The
prompt assembled by `build_analysis_input` only feeds that external call, so
it is absorbed into `llm` as well. On success: reconcile proposed loops
against the summaries of the currently unresolved loops (`get_open_loops`
with limit 100), render the prompt, synthesize a conversation when none was
given, persist the prepared context (TTL 7 days), mark the conversation
analyzed. -/
def run_analysis (db : Db) (now : Nat) (llm : Except String (Option AnalysisResult))
    (conversation_id : Option Nat) : Db × RunOutcome :=
  match llm with
  | .error e => (db, .errorResult e)
  | .ok none => (db, .noneResult)
  | .ok (some result0) =>
      let current_summaries := (Store.get_open_loops db.open_loops 100).map (·.summary)
      let result := { result0 with
        open_loops := result0.open_loops.filter
          (fun l => current_summaries.contains l.summary) }
      let prompt := build_prepared_prompt result
      let (db1, cid) :=
        match conversation_id with
        | some c => (db, c)
        | none =>
            let (dbA, c) := Store.start_conversation db now (some "manual") (some "cli")
            (Store.end_conversation dbA now c (some result.context_summary), c)
      let (db2, pid) := Store.save_prepared_context db1 now cid result.context_summary
        result.open_loops result.selected_memories result.topic_index
        result.priority_topics prompt 7
      let db3 := Store.mark_analyzed db2 cid
      (db3, .ok pid result prompt)

/-- A seed-entity record from `seed_entities.yaml`; `extract_entity_names`
reads only `e.get("name", "")`. -/
structure SeedEntity where
  name : String
  deriving DecidableEq, Repr

/-- Python `str.split()` with no argument: whitespace split dropping empty
tokens (modelled on the space character; `"".split()` is `[]`). -/
def pySplitWs (s : String) : List String :=
  (wsSplit s.data).map (fun cs => ⟨cs⟩)

/-- Python `d[k] = v` on a string-valued dict (insertion order, in-place
overwrite), as used for the `known` lookup table in `extract_entity_names`. -/
def strDictInsert (m : List (String × String)) (k v : String) : List (String × String) :=
  if m.any (fun p => p.1 == k) then
    m.map (fun p => if p.1 == k then (k, v) else p)
  else m ++ [(k, v)]

/-- Python `needle in hay` on strings: substring containment. -/
def strContains (hay needle : String) : Bool :=
  decide (needle.toList.IsInfix hay.toList)

/-- One entity's contribution to the `known` table in `extract_entity_names`
(entities.py lines 24–28 and 30–34): register the full lowercase name, then
take the first whitespace token — `name.split()[0]` raises `IndexError` on an
empty name — and register it too when longer than 2 characters. -/
def processEntityName (known : List (String × String)) (name : String) :
    Except String (List (String × String)) :=
  let known1 := strDictInsert known (strLower name) name
  match (pySplitWs name).head? with
  | none => Except.error "IndexError: list index out of range"
  | some tok =>
      let first := strLower tok
      Except.ok (if first.length > 2 then strDictInsert known1 first name else known1)

/-- `extract_entity_names` (pipeline/entities.py lines 19–40). The seed list
(the `seed_entities` argument, with the `load_seed_entities()` file fallback
resolved by the caller) and the stored entities (`list_entities()`) both feed
the `known` table; then every known key occurring in the lowercased text
contributes its canonical name, deduplicated. The `Except` models the
function raising. -/
def extract_entity_names (text : String) (seed_entities : List SeedEntity)
    (stored : List Entity) : Except String (List String) := do
  let known ← seed_entities.foldlM (fun k e => processEntityName k e.name)
    ([] : List (String × String))
  let known ← stored.foldlM (fun k e => processEntityName k e.name) known
  let text_lower := strLower text
  Except.ok (known.foldl (fun found kv =>
    if strContains text_lower kv.1 && !(found.contains kv.2) then found ++ [kv.2]
    else found) [])

/-- Per-row specification of a mutating decay pass, written from the claim's
wording (with the caveat, forced by the source's Python `or`, that a stored
decay factor of zero falls back to the global rate — see `effectiveRate`):
archived rows are untouched, protected rows are untouched, and otherwise the
row is archived (importance untouched) exactly when the decayed importance
falls strictly below the threshold, else the importance is rewritten. -/
def decayRowSpec (decay_rate min_importance : ℚ) (now : Nat) (m : MemRow) : MemRow :=
  if m.archived then m
  else if isProtected m then m
  else
    let n := m.importance * effectiveRate m decay_rate
    if n < min_importance then
      { m with archived := true, consolidated_into := none, updated_at := now }
    else
      { m with importance := n, updated_at := now }

/-- Pointwise effect on a table row `m` of scanning snapshot row `t` in a
mutating decay pass (proof helper: `decayStateStep` is a map of this across
the rows whose id matches `t.id`). -/
def rowChange (decay_rate min_importance : ℚ) (now : Nat) (t : MemRow) (m : MemRow) : MemRow :=
  if isProtected t then m
  else
    let n := t.importance * effectiveRate t decay_rate
    if n < min_importance then
      { m with archived := true, consolidated_into := none, updated_at := now }
    else
      { m with importance := n, updated_at := now }

/-! Concrete inputs used by counterexamples and witnesses. -/

/-- An empty database. -/
def emptyDb : Db :=
  { memories := [], entities := [], entity_mentions := [], open_loops := [],
    conversations := [], prepared_contexts := [], next_id := 0 }

/-- A non-archived memory whose per-record `decay_factor` is stored as 0. -/
def mZero : MemRow :=
  { id := 0, content := "m", memory_type := "observation", source := none,
    importance := 1, decay_factor := some 0, metadata := [], archived := false,
    consolidated_into := none, created_at := 0, updated_at := 0 }

/-- A protected memory (metadata carries `protected: true`). -/
def mProt : MemRow :=
  { id := 1, content := "p", memory_type := "observation", source := none,
    importance := 1, decay_factor := none, metadata := [("protected", .jbool true)],
    archived := false, consolidated_into := none, created_at := 0, updated_at := 0 }

/-- A memory that survives a decay pass at rate 1/2, threshold 1/2. -/
def mKeep : MemRow :=
  { id := 2, content := "k", memory_type := "fact", source := none,
    importance := 2, decay_factor := none, metadata := [], archived := false,
    consolidated_into := none, created_at := 0, updated_at := 0 }

/-- A memory that is archived by a decay pass at rate 1/2, threshold 1/2. -/
def mArch : MemRow :=
  { id := 3, content := "a", memory_type := "fact", source := none,
    importance := 1/2, decay_factor := none, metadata := [], archived := false,
    consolidated_into := none, created_at := 0, updated_at := 0 }

/-- An unresolved open loop with id 7. -/
def loopSeven : OpenLoop :=
  { id := 7, summary := "s", priority := "medium", follow_up_question := none,
    source_memory_id := none, metadata := [], resolved_at := none, created_at := 0 }

/-- The memory row deleted in the C3 scenario. -/
def mDel : MemRow :=
  { id := 1, content := "hello", memory_type := "observation", source := none,
    importance := 1, decay_factor := none, metadata := [], archived := false,
    consolidated_into := none, created_at := 0, updated_at := 0 }

/-- A database holding `mDel` and one entity mention referencing it. -/
def dbDel : Db :=
  { emptyDb with
    memories := [mDel],
    entity_mentions := [{ id := 5, entity_id := 3, memory_id := 1, context := none }],
    next_id := 6 }

/-- A pending prepared context (created at 3, expires at 10, never used). -/
def ctxPend : PreparedCtx :=
  { id := 1, conversation_id := 0, context_summary := "", open_loops_json := [],
    selected_memories_json := [], topic_index := "", priority_topics := "",
    prepared_prompt := "", created_at := 3, expires_at := 10, used_at := none }

/-- An unresolved open loop with summary "A". -/
def loopA : OpenLoop :=
  { id := 1, summary := "A", priority := "high", follow_up_question := none,
    source_memory_id := none, metadata := [], resolved_at := none, created_at := 1 }

/-- A resolved open loop with summary "B". -/
def loopB : OpenLoop :=
  { id := 2, summary := "B", priority := "low", follow_up_question := none,
    source_memory_id := none, metadata := [], resolved_at := some 4, created_at := 2 }

/-- A database with one unresolved loop ("A") and one resolved loop ("B"). -/
def dbAna : Db :=
  { emptyDb with open_loops := [loopA, loopB], next_id := 10 }

/-- An analysis result proposing loops "A" (live), "B" (resolved) and "C"
(invented). -/
def resAna : AnalysisResult :=
  { context_summary := "sum",
    open_loops := [{ summary := "A", priority := "high", follow_up_question := none },
                   { summary := "B", priority := "low", follow_up_question := none },
                   { summary := "C", priority := "medium", follow_up_question := none }],
    selected_memories := [], topic_index := "", priority_topics := "" }

/-- The stored entity "Alice" with metadata `{a: 0, b: 2}`. -/
def aliceEnt : Entity :=
  { id := 0, name := "Alice", entity_type := "person", summary := none,
    metadata := [("a", .jnum 0), ("b", .jnum 2)], last_referenced := 0 }

/-- A database holding only `aliceEnt`. -/
def dbEnt : Db :=
  { emptyDb with entities := [aliceEnt], next_id := 1 }

/-! ## Helper lemmas for the decay pass -/

/-- A mutating decay step is a map across the table touching only the rows
whose id matches the scanned row. -/
theorem decayStateStep_eq_map (r mi : ℚ) (now : Nat) (st : List MemRow) (t : MemRow) :
    decayStateStep r mi false now st t
      = st.map (fun m => if m.id == t.id then rowChange r mi now t m else m) := by
  by_cases hp : isProtected t
  · simp [decayStateStep, rowChange, hp]
  · by_cases hlt : t.importance * effectiveRate t r < mi
    · simp [decayStateStep, rowChange, Store.archive_memory, hp, hlt]
    · simp [decayStateStep, rowChange, Store.update_importance, hp, hlt]

/-- Folding mutating decay steps over a snapshot acts pointwise on the table. -/
theorem decay_fold_map (r mi : ℚ) (now : Nat) :
    ∀ (todo st : List MemRow),
      todo.foldl (decayStateStep r mi false now) st
        = st.map (fun m =>
            todo.foldl (fun x t => if x.id == t.id then rowChange r mi now t x else x) m)
  | [], st => by simp
  | t :: ts, st => by
    rw [List.foldl_cons, decayStateStep_eq_map, decay_fold_map r mi now ts, List.map_map]
    rfl

/-- `rowChange` never alters a row's id. -/
theorem rowChange_id (r mi : ℚ) (now : Nat) (t m : MemRow) :
    (rowChange r mi now t m).id = m.id := by
  by_cases hp : isProtected t <;>
    by_cases hlt : t.importance * effectiveRate t r < mi <;>
      simp [rowChange, hp, hlt]

/-- Scanned rows with a foreign id leave a table row untouched. -/
theorem foldPoint_skip (r mi : ℚ) (now : Nat) :
    ∀ (todo : List MemRow) (x : MemRow), (∀ t ∈ todo, t.id ≠ x.id) →
      todo.foldl (fun x t => if x.id == t.id then rowChange r mi now t x else x) x = x
  | [], _, _ => rfl
  | t :: ts, x, h => by
    have ht : ¬ (x.id = t.id) := fun he => h t (List.mem_cons_self t ts) he.symm
    have hstep : (if x.id == t.id then rowChange r mi now t x else x) = x := by
      simp [ht]
    rw [List.foldl_cons, hstep]
    exact foldPoint_skip r mi now ts x (fun u hu => h u (List.mem_cons_of_mem t hu))

/-- C1 (amended): a mutating decay pass (distinct row ids) rewrites the
memories table exactly to its per-row specification: archived rows are left
alone, protected rows are neither re-scored nor archived, and every other
scanned row is either archived with its stored importance untouched (exactly
when importance times the effective rate falls strictly below
`min_importance`) or re-scored to that product — the effective rate being the
per-record `decay_factor` when it is set *and nonzero*, else the global rate
(the zero case is what forces the amendment; see the counterexample). -/
theorem apply_decay_state_eq (st : List MemRow) (r mi : ℚ) (now : Nat)
    (h : (st.map MemRow.id).Nodup) :
    (apply_decay st r mi false now).1 = st.map (decayRowSpec r mi now) := by
  have h1 : (apply_decay st r mi false now).1
      = (st.filter (fun m => !m.archived)).foldl (decayStateStep r mi false now) st := rfl
  rw [h1, decay_fold_map]
  apply List.map_congr_left
  intro m hm
  have hinj : ∀ ⦃x : MemRow⦄, x ∈ st → ∀ ⦃y : MemRow⦄, y ∈ st → x.id = y.id → x = y :=
    List.inj_on_of_nodup_map h
  by_cases ha : m.archived
  · have hskip : ∀ t ∈ st.filter (fun m => !m.archived), t.id ≠ m.id := by
      intro t htmem heq
      have htst := List.mem_filter.mp htmem
      have hteq : t = m := hinj htst.1 hm heq
      rw [hteq] at htst
      simp [ha] at htst
    rw [foldPoint_skip r mi now _ m hskip]
    simp [decayRowSpec, ha]
  · have hmem : m ∈ st.filter (fun m => !m.archived) :=
      List.mem_filter.mpr ⟨hm, by simp [ha]⟩
    obtain ⟨l1, l2, hdecomp⟩ := List.append_of_mem hmem
    have hnd : ((st.filter (fun m => !m.archived)).map MemRow.id).Nodup :=
      List.Nodup.sublist (List.Sublist.map MemRow.id (List.filter_sublist st)) h
    rw [hdecomp] at hnd
    simp only [List.map_append, List.map_cons] at hnd
    have hnd' := List.nodup_append.mp hnd
    have hl2 : ∀ t ∈ l2, t.id ≠ m.id := by
      intro t ht he
      have hnotin : m.id ∉ l2.map MemRow.id := (List.nodup_cons.mp hnd'.2.1).1
      exact hnotin (he ▸ List.mem_map_of_mem MemRow.id ht)
    have hl1 : ∀ t ∈ l1, t.id ≠ m.id := by
      intro t ht he
      exact hnd'.2.2 (List.mem_map_of_mem MemRow.id ht)
        (he ▸ List.mem_cons_self m.id (l2.map MemRow.id))
    rw [hdecomp, List.foldl_append, List.foldl_cons]
    rw [foldPoint_skip r mi now l1 m hl1]
    have hstep : (if m.id == m.id then rowChange r mi now m m else m)
        = rowChange r mi now m m := by simp
    rw [hstep]
    have hl2' : ∀ t ∈ l2, t.id ≠ (rowChange r mi now m m).id := by
      intro t ht
      rw [rowChange_id]
      exact hl2 t ht
    rw [foldPoint_skip r mi now l2 (rowChange r mi now m m) hl2']
    by_cases hp : isProtected m <;>
      by_cases hlt : m.importance * effectiveRate m r < mi <;>
        simp [rowChange, decayRowSpec, ha, hp, hlt]

/-- C1 (witness): the amended theorem applied to a three-row store holding a
protected row, a surviving row and an archived row, at rate 1/2 and
threshold 1/2. -/
theorem apply_decay_state_eq_witness :
    (apply_decay [mProt, mKeep, mArch] (1/2) (1/2) false 9).1
      = [mProt, mKeep, mArch].map (decayRowSpec (1/2) (1/2) 9) :=
  apply_decay_state_eq [mProt, mKeep, mArch] (1/2) (1/2) 9 (by decide)

/-- C1 (counterexample): `mZero` has its per-record `decay_factor` set — to
zero. Reading the claim literally, its new importance is
`importance * decay_factor = 0`, which is strictly below `min_importance = 1`,
so the claim requires the memory to be archived; the code instead falls back
to the global rate 1 (Python `or` on the falsy 0.0), re-scores the memory to
importance 1 and does not archive it. -/
theorem apply_decay_decay_factor_zero_cex :
    mZero.decay_factor = some 0 ∧
    mZero.importance * 0 < 1 ∧
    (apply_decay [mZero] 1 1 false 5).1.map MemRow.archived = [false] ∧
    (apply_decay [mZero] 1 1 false 5).1.map MemRow.importance = [1] := by
  refine ⟨rfl, by norm_num [mZero], ?_, ?_⟩ <;>
    norm_num [apply_decay, decayStateStep, isProtected, dictGet, effectiveRate,
      Store.update_importance, Store.archive_memory, mZero, JVal.truthy]

/-- A dry-run decay step never touches the store. -/
theorem decayStateStep_dry (r mi : ℚ) (now : Nat) (st : List MemRow) (t : MemRow) :
    decayStateStep r mi true now st t = st := by
  by_cases hp : isProtected t <;>
    by_cases hlt : t.importance * effectiveRate t r < mi <;>
      simp [decayStateStep, hp, hlt]

/-- A dry-run decay fold never touches the store. -/
theorem foldl_decay_dry (r mi : ℚ) (now : Nat) :
    ∀ (todo st : List MemRow), todo.foldl (decayStateStep r mi true now) st = st
  | [], _ => rfl
  | t :: ts, st => by
    rw [List.foldl_cons, decayStateStep_dry]
    exact foldl_decay_dry r mi now ts st

/-- C8: a dry run leaves the memories table unchanged, reports exactly the
counts a mutating run over the same snapshot reports, and additionally
returns the three partition preview lists (whose entries carry the content
capped to 100 characters — see `partStep`), each count being the length of
its partition list. -/
theorem apply_decay_dry_run_spec (st : List MemRow) (r mi : ℚ) (now now' : Nat) :
    (apply_decay st r mi true now).1 = st ∧
    (apply_decay st r mi true now).2.protected_count
      = (apply_decay st r mi false now').2.protected_count ∧
    (apply_decay st r mi true now).2.decayed_count
      = (apply_decay st r mi false now').2.decayed_count ∧
    (apply_decay st r mi true now).2.archived_count
      = (apply_decay st r mi false now').2.archived_count ∧
    (apply_decay st r mi true now).2.protected_preview
      = some (decayPartition r mi (st.filter (fun m => !m.archived))).1 ∧
    (apply_decay st r mi true now).2.would_decay
      = some (decayPartition r mi (st.filter (fun m => !m.archived))).2.1 ∧
    (apply_decay st r mi true now).2.would_archive
      = some (decayPartition r mi (st.filter (fun m => !m.archived))).2.2 ∧
    (apply_decay st r mi false now').2.protected_count
      = (decayPartition r mi (st.filter (fun m => !m.archived))).1.length ∧
    (apply_decay st r mi false now').2.decayed_count
      = (decayPartition r mi (st.filter (fun m => !m.archived))).2.1.length ∧
    (apply_decay st r mi false now').2.archived_count
      = (decayPartition r mi (st.filter (fun m => !m.archived))).2.2.length :=
  ⟨foldl_decay_dry r mi now _ st, rfl, rfl, rfl, rfl, rfl, rfl, rfl, rfl, rfl⟩

/-- C2 (counterexample): resolving loop 7 at time 1 sets `resolved_at` to 1;
resolving it again at time 2 overwrites `resolved_at` with 2 — the second
call is not a no-op and the value set by the first call is lost. -/
theorem resolve_loop_second_call_cex :
    (Store.resolve_loop [loopSeven] 1 7).map OpenLoop.resolved_at = [some 1] ∧
    (Store.resolve_loop (Store.resolve_loop [loopSeven] 1 7) 2 7).map OpenLoop.resolved_at
      = [some 2] :=
  ⟨rfl, rfl⟩

/-- C2 (amended): `resolve_loop` carries no `resolved_at IS NULL` guard, so a
repeated call simply overwrites: resolving after an earlier resolve at `t1`
yields exactly the state of a single resolve at the second call's timestamp
`t2` — a no-op only when the two timestamps coincide. -/
theorem resolve_loop_overwrite (loops : List OpenLoop) (t1 t2 : Nat) (loop_id : Nat) :
    Store.resolve_loop (Store.resolve_loop loops t1 loop_id) t2 loop_id
      = Store.resolve_loop loops t2 loop_id := by
  unfold Store.resolve_loop
  rw [List.map_map]
  apply List.map_congr_left
  intro l _
  by_cases h : l.id = loop_id
  · simp [h]
  · simp [h]

/-- C3 (code_bug): deleting memory 1 through the service endpoint removes the
memory row and its entity-mention rows, but the ChromaDB mirror record for
memory 1 is still present afterwards — the endpoint (like every other caller
in the repository) never invokes `Vec.delete_memory`, which would have
removed it (last conjunct). -/
theorem delete_memory_endpoint_leaves_vector_record :
    (delete_memory_endpoint dbDel [⟨1, "hello"⟩] 1).1.memories = [] ∧
    (delete_memory_endpoint dbDel [⟨1, "hello"⟩] 1).1.entity_mentions = [] ∧
    (delete_memory_endpoint dbDel [⟨1, "hello"⟩] 1).2.1 = [⟨1, "hello"⟩] ∧
    Vec.delete_memory [⟨1, "hello"⟩] 1 = [] :=
  ⟨rfl, rfl, rfl, rfl⟩

/-- `Store.newestStep` always yields a row. -/
theorem newestStep_isSome (acc : Option PreparedCtx) (c : PreparedCtx) :
    (Store.newestStep acc c).isSome := by
  cases acc with
  | none => rfl
  | some b =>
    show (if b.created_at < c.created_at then some c else some b).isSome = true
    split <;> rfl

/-- A `Store.newestStep` fold comes back empty only from an empty list and accumulator. -/
theorem fold_newest_none :
    ∀ (l : List PreparedCtx) (acc : Option PreparedCtx),
      l.foldl Store.newestStep acc = none → l = [] ∧ acc = none
  | [], _, h => ⟨rfl, h⟩
  | c :: l, acc, h => by
    rw [List.foldl_cons] at h
    rcases fold_newest_none l (Store.newestStep acc c) h with ⟨-, h2⟩
    have := newestStep_isSome acc c
    rw [h2] at this
    cases this

/-- The row a `Store.newestStep` fold selects comes from the list (or the
accumulator) and carries the greatest `created_at` of both. -/
theorem fold_newest_some :
    ∀ (l : List PreparedCtx) (acc : Option PreparedCtx) (r : PreparedCtx),
      l.foldl Store.newestStep acc = some r →
      (r ∈ l ∨ acc = some r) ∧ (∀ c ∈ l, c.created_at ≤ r.created_at) ∧
        (∀ b, acc = some b → b.created_at ≤ r.created_at)
  | [], acc, r, h => by
    refine ⟨Or.inr h, by simp, ?_⟩
    intro b hb
    rw [hb] at h
    cases h
    exact le_refl _
  | c :: l, acc, r, h => by
    rw [List.foldl_cons] at h
    obtain ⟨hmem, hmax, hstep⟩ := fold_newest_some l (Store.newestStep acc c) r h
    have hc : c.created_at ≤ r.created_at := by
      cases acc with
      | none => exact hstep c rfl
      | some b =>
        by_cases hlt : b.created_at < c.created_at
        · exact hstep c (by simp [Store.newestStep, hlt])
        · exact le_trans (le_of_not_lt hlt) (hstep b (by simp [Store.newestStep, hlt]))
    have hb : ∀ b, acc = some b → b.created_at ≤ r.created_at := by
      intro b hbeq
      subst hbeq
      by_cases hlt : b.created_at < c.created_at
      · exact le_trans (le_of_lt hlt) (hstep c (by simp [Store.newestStep, hlt]))
      · exact hstep b (by simp [Store.newestStep, hlt])
    refine ⟨?_, ?_, hb⟩
    · rcases hmem with h1 | h1
      · exact Or.inl (List.mem_cons_of_mem c h1)
      · cases acc with
        | none =>
          have hcr : c = r := by simpa [Store.newestStep] using h1
          exact Or.inl (hcr ▸ List.mem_cons_self c l)
        | some b =>
          by_cases hlt : b.created_at < c.created_at
          · have hcr : c = r := by simpa [Store.newestStep, hlt] using h1
            exact Or.inl (hcr ▸ List.mem_cons_self c l)
          · have hbr : b = r := by simpa [Store.newestStep, hlt] using h1
            exact Or.inr (by rw [hbr])
    · intro x hx
      rcases List.mem_cons.mp hx with rfl | hx'
      · exact hc
      · exact hmax x hx'

/-- C4: `get_unused_context` returns a stored record that is unused
(`used_at` absent), unexpired (`expires_at` strictly in the future), and at
least as recently created as every other unused unexpired record; it returns
nothing exactly when no such record exists — in particular an expired record
is never returned, even with `used_at` absent. -/
theorem get_unused_context_spec (ctxs : List PreparedCtx) (now : Nat) :
    (∀ r, Store.get_unused_context ctxs now = some r →
        r ∈ ctxs ∧ r.used_at = none ∧ now < r.expires_at ∧
          ∀ c ∈ ctxs, c.used_at = none → now < c.expires_at →
            c.created_at ≤ r.created_at) ∧
    (Store.get_unused_context ctxs now = none →
        ∀ c ∈ ctxs, ¬ (c.used_at = none ∧ now < c.expires_at)) := by
  constructor
  · intro r hr
    unfold Store.get_unused_context at hr
    obtain ⟨hmem, hmax, -⟩ := fold_newest_some _ none r hr
    rcases hmem with hmem | habs
    · have hfil := List.mem_filter.mp hmem
      have hcond := hfil.2
      simp only [Bool.and_eq_true, Option.isNone_iff_eq_none, decide_eq_true_eq] at hcond
      refine ⟨hfil.1, hcond.1, hcond.2, ?_⟩
      intro c hcmem hcu hce
      exact hmax c (List.mem_filter.mpr ⟨hcmem, by
        simp only [Bool.and_eq_true, Option.isNone_iff_eq_none, decide_eq_true_eq]
        exact ⟨hcu, hce⟩⟩)
    · cases habs
  · rintro hnone c hcmem ⟨hcu, hce⟩
    unfold Store.get_unused_context at hnone
    obtain ⟨hemp, -⟩ := fold_newest_none _ none hnone
    have hin : c ∈ ctxs.filter (fun c => c.used_at.isNone && decide (now < c.expires_at)) :=
      List.mem_filter.mpr ⟨hcmem, by
        simp only [Bool.and_eq_true, Option.isNone_iff_eq_none, decide_eq_true_eq]
        exact ⟨hcu, hce⟩⟩
    rw [hemp] at hin
    cases hin

/-- C4 (witness): applied to a single pending record at time 5. -/
theorem get_unused_context_spec_witness :
    ctxPend ∈ [ctxPend] ∧ ctxPend.used_at = none ∧ 5 < ctxPend.expires_at :=
  have h := (get_unused_context_spec [ctxPend] 5).1 ctxPend rfl
  ⟨h.1, h.2.1, h.2.2.1⟩

/-- C6: when the external model call raises any exception — including a
malformed, unparsable response surfaced by `_parse_json` — `run_analysis`
returns the structured error dict (`{"error": str(e)}`) instead of
propagating, and the database, in particular the `prepared_contexts` table,
is completely untouched: no PreparedContext row is created. -/
theorem run_analysis_error_no_context (db : Db) (now : Nat) (e : String)
    (conversation_id : Option Nat) :
    run_analysis db now (Except.error e) conversation_id = (db, RunOutcome.errorResult e) ∧
    (run_analysis db now (Except.error e) conversation_id).1.prepared_contexts
      = db.prepared_contexts :=
  ⟨rfl, rfl⟩

/-- Every loop listed by `get_open_loops` is a stored, unresolved loop. -/
theorem get_open_loops_subset_unresolved (loops : List OpenLoop) (limit : Nat) :
    ∀ l ∈ Store.get_open_loops loops limit, l ∈ loops ∧ l.resolved_at = none := by
  intro l hl
  unfold Store.get_open_loops at hl
  have h1 : l ∈ (loops.filter (fun l => l.resolved_at.isNone)).mergeSort Store.loopOrder :=
    List.take_subset _ _ hl
  have h2 : l ∈ loops.filter (fun l => l.resolved_at.isNone) :=
    (List.mergeSort_perm _ _).mem_iff.mp h1
  have h3 := List.mem_filter.mp h2
  exact ⟨h3.1, Option.isNone_iff_eq_none.mp h3.2⟩

/-- C5: a successful `run_analysis` appends exactly one prepared context to
the table, and every open loop persisted inside it has a summary equal to
that of some currently unresolved stored open loop — any proposed loop
without such a match was dropped before the save. -/
theorem run_analysis_kept_loops_unresolved (db : Db) (now : Nat) (res : AnalysisResult)
    (conversation_id : Option Nat) :
    ∃ pc, (run_analysis db now (Except.ok (some res)) conversation_id).1.prepared_contexts
        = db.prepared_contexts ++ [pc] ∧
      ∀ l ∈ pc.open_loops_json, ∃ ol, ol ∈ db.open_loops ∧ ol.resolved_at = none ∧
        ol.summary = l.summary := by
  have hkeep : ∀ l ∈ res.open_loops.filter (fun l =>
      (((Store.get_open_loops db.open_loops 100).map (fun x => x.summary)).contains
        l.summary)),
      ∃ ol, ol ∈ db.open_loops ∧ ol.resolved_at = none ∧ ol.summary = l.summary := by
    intro l hl
    have hfil := List.mem_filter.mp hl
    have hsum : l.summary ∈ (Store.get_open_loops db.open_loops 100).map
        (fun x => x.summary) := by
      simpa using hfil.2
    obtain ⟨ol, holmem, holsum⟩ := List.mem_map.mp hsum
    obtain ⟨holl, holres⟩ := get_open_loops_subset_unresolved db.open_loops 100 ol holmem
    exact ⟨ol, holl, holres, holsum⟩
  cases conversation_id with
  | some c => exact ⟨_, rfl, hkeep⟩
  | none => exact ⟨_, rfl, hkeep⟩

/-- C5 (witness): the reconciliation theorem applied to a store with one
unresolved loop "A" and one resolved loop "B", for an analysis proposing
"A", "B" and "C". -/
theorem run_analysis_kept_loops_unresolved_witness :
    ∃ pc, (run_analysis dbAna 20 (Except.ok (some resAna)) none).1.prepared_contexts
        = dbAna.prepared_contexts ++ [pc] ∧
      ∀ l ∈ pc.open_loops_json, ∃ ol, ol ∈ dbAna.open_loops ∧ ol.resolved_at = none ∧
        ol.summary = l.summary :=
  run_analysis_kept_loops_unresolved dbAna 20 resAna none

/-- Unfolding `update_entity` at a summary-only update. -/
theorem update_entity_some_none (db : Db) (now : Nat) (entity_id : Nat) (s : String) :
    Store.update_entity db now entity_id (some s) none
      = Store.touchEntity db entity_id
          (fun e => { e with summary := some s, last_referenced := now }) := rfl

/-- Unfolding `update_entity` at a metadata-only update. -/
theorem update_entity_none_some (db : Db) (now : Nat) (entity_id : Nat) (m : Dict) :
    Store.update_entity db now entity_id none (some m)
      = Store.touchEntity db entity_id
          (fun e => { e with metadata := m, last_referenced := now }) := rfl

/-- The entity table after a `touchEntity`. -/
theorem touchEntity_entities (db : Db) (entity_id : Nat) (f : Entity → Entity) :
    (Store.touchEntity db entity_id f).entities
      = db.entities.map (fun x => if x.id == entity_id then f x else x) := rfl

/-- Two successive id-targeted entity updates collapse to a single update by
the composite, provided entity ids are unique in the table and the first
update preserves the id. -/
theorem map_if_id_comp (l : List Entity) (e : Entity) (hemem : e ∈ l)
    (hinj : ∀ ⦃x : Entity⦄, x ∈ l → ∀ ⦃y : Entity⦄, y ∈ l → x.id = y.id → x = y)
    (f g : Entity → Entity) (hfid : (f e).id = e.id) :
    ((l.map (fun x => if x.id == e.id then f x else x)).map
        (fun x => if x.id == e.id then g x else x))
      = l.map (fun x => if x.id = e.id then g (f e) else x) := by
  rw [List.map_map]
  apply List.map_congr_left
  intro x hx
  by_cases hxe : x.id = e.id
  · have hxeq : x = e := hinj hx hemem hxe
    subst hxeq
    simp [Function.comp, hfid]
  · simp [Function.comp, hxe]

/-- A single id-targeted entity update rewrites exactly the looked-up row. -/
theorem map_if_id_single (l : List Entity) (e : Entity) (hemem : e ∈ l)
    (hinj : ∀ ⦃x : Entity⦄, x ∈ l → ∀ ⦃y : Entity⦄, y ∈ l → x.id = y.id → x = y)
    (g : Entity → Entity) :
    l.map (fun x => if x.id == e.id then g x else x)
      = l.map (fun x => if x.id = e.id then g e else x) := by
  apply List.map_congr_left
  intro x hx
  by_cases hxe : x.id = e.id
  · have hxeq : x = e := hinj hx hemem hxe
    subst hxeq
    simp
  · simp [hxe]

/-- Replacing the looked-up row by itself is the identity. -/
theorem map_if_id_self (l : List Entity) (e : Entity) (hemem : e ∈ l)
    (hinj : ∀ ⦃x : Entity⦄, x ∈ l → ∀ ⦃y : Entity⦄, y ∈ l → x.id = y.id → x = y) :
    l = l.map (fun x => if x.id = e.id then e else x) := by
  conv_lhs => rw [← List.map_id l]
  apply List.map_congr_left
  intro x hx
  by_cases hxe : x.id = e.id
  · have hxeq : x = e := hinj hx hemem hxe
    subst hxeq
    simp
  · simp [hxe]

/-- C7: ingesting an entity whose name matches a stored entity
case-insensitively merges into that record — a non-empty incoming summary
replaces the stored summary (an empty or missing one leaves it unchanged),
incoming metadata keys overwrite stored values with absent keys preserved —
while every other row is untouched and nothing is inserted; with no
case-insensitive match a fresh record is inserted. The last conjunct is the
claim's concrete merge example. -/
theorem ingest_entity_merge_spec (db : Db) (now : Nat) (name etype : String)
    (summary : Option String) (metadata : Option Dict)
    (hids : (db.entities.map Entity.id).Nodup) :
    (∀ e, Store.get_entity_by_name db.entities name = some e →
        (ingest_entity db now name etype summary metadata none none).1.entities
          = db.entities.map
              (fun x => if x.id = e.id then merged_entity_spec now e summary metadata
                else x)) ∧
    (Store.get_entity_by_name db.entities name = none →
        (ingest_entity db now name etype summary metadata none none).1.entities
          = db.entities ++
              [{
                id := db.next_id, name := name, entity_type := etype,
                summary := summary, metadata := metadata.getD [],
                last_referenced := now }]) ∧
    dictUpdate [("a", JVal.jnum 0), ("b", JVal.jnum 2)] [("a", JVal.jnum 1)]
      = [("a", JVal.jnum 1), ("b", JVal.jnum 2)] := by
  have hinj := List.inj_on_of_nodup_map hids
  refine ⟨?_, ?_, by rfl⟩
  · intro e he
    have hemem : e ∈ db.entities := List.mem_of_find?_eq_some he
    simp only [ingest_entity, he]
    by_cases hS : truthyStr summary <;> by_cases hM : truthyDict metadata <;>
      simp only [hS, hM, if_true, Bool.false_eq_true, if_false]
    · rcases summary with _ | s
      · exact absurd hS (by simp [truthyStr])
      rcases metadata with _ | m
      · exact absurd hM (by simp [truthyDict])
      simp only [Option.getD_some]
      rw [update_entity_some_none, update_entity_none_some, touchEntity_entities,
        touchEntity_entities]
      rw [map_if_id_comp db.entities e hemem hinj
        (fun x => { x with summary := some s, last_referenced := now })
        (fun x => { x with metadata := dictUpdate e.metadata m, last_referenced := now })
        rfl]
      apply List.map_congr_left
      intro x hx
      by_cases hxe : x.id = e.id
      · simp [hxe, merged_entity_spec, hS, hM]
      · simp [hxe]
    · rcases summary with _ | s
      · exact absurd hS (by simp [truthyStr])
      rw [update_entity_some_none, touchEntity_entities]
      rw [map_if_id_single db.entities e hemem hinj]
      apply List.map_congr_left
      intro x hx
      by_cases hxe : x.id = e.id
      · simp [hxe, merged_entity_spec, hS, hM]
      · simp [hxe]
    · rcases metadata with _ | m
      · exact absurd hM (by simp [truthyDict])
      simp only [Option.getD_some]
      rw [update_entity_none_some, touchEntity_entities]
      rw [map_if_id_single db.entities e hemem hinj]
      apply List.map_congr_left
      intro x hx
      by_cases hxe : x.id = e.id
      · simp [hxe, merged_entity_spec, hS, hM]
      · simp [hxe]
    · conv_lhs => rw [map_if_id_self db.entities e hemem hinj]
      apply List.map_congr_left
      intro x hx
      by_cases hxe : x.id = e.id
      · simp [hxe, merged_entity_spec, hS, hM]
      · simp [hxe]
  · intro hn
    simp only [ingest_entity, hn]
    simp [Store.add_entity]

/-- C7 (witness): merging summary "S" and metadata `{a: 1}` into the stored
"Alice" (looked up as "alice", metadata `{a: 0, b: 2}`) yields summary "S"
and metadata `{a: 1, b: 2}`. -/
theorem ingest_entity_merge_spec_witness :
    (ingest_entity dbEnt 5 "alice" "person" (some "S") (some [("a", JVal.jnum 1)])
        none none).1.entities
      = [{ id := 0, name := "Alice", entity_type := "person", summary := some "S",
           metadata := [("a", JVal.jnum 1), ("b", JVal.jnum 2)], last_referenced := 5 }] :=
  ((ingest_entity_merge_spec dbEnt 5 "alice" "person" (some "S")
      (some [("a", JVal.jnum 1)]) (by decide)).1 aliceEnt (by decide)).trans (by decide)

/-- C9: creating a memory with an unknown memory type, or an open loop with a
priority outside high/medium/low, is rejected with a validation error before
anything is persisted — the returned database state is exactly the input
state and no row is written. The enforcing type domains are spec-modelled
(`schema.sql` is not among the provided sources); see `validMemoryType` and
`validPriority`. -/
theorem add_memory_add_open_loop_validation (db : Db) (now : Nat) (content t : String)
    (source : Option String) (importance : ℚ) (md : Option Dict)
    (summary p : String) (fq : Option String) (smid : Option Nat) (md2 : Option Dict) :
    (validMemoryType t = false →
        Store.add_memory db now content t source importance md
          = (db, Except.error "ValidationError: unknown memory type")) ∧
    (validPriority p = false →
        Store.add_open_loop db now summary p fq smid md2
          = (db, Except.error "ValidationError: unknown priority")) := by
  constructor
  · intro h
    simp [Store.add_memory, h]
  · intro h
    simp [Store.add_open_loop, h]

/-- C9 (witness): the unknown memory type "bogus" and the unknown priority
"urgent" are both rejected on an empty store, which is returned unchanged. -/
theorem add_memory_add_open_loop_validation_witness :
    Store.add_memory emptyDb 0 "x" "bogus" none 1 none
      = (emptyDb, Except.error "ValidationError: unknown memory type") ∧
    Store.add_open_loop emptyDb 0 "s" "urgent" none none none
      = (emptyDb, Except.error "ValidationError: unknown priority") :=
  ⟨(add_memory_add_open_loop_validation emptyDb 0 "x" "bogus" none 1 none
      "s" "urgent" none none none).1 (by decide),
   (add_memory_add_open_loop_validation emptyDb 0 "x" "bogus" none 1 none
      "s" "urgent" none none none).2 (by decide)⟩

/-- C10: `extract_entity_names` is not total over its inputs — with a seed
list containing an entity whose name is the empty string, taking the first
token of the empty name (`name.split()[0]`) raises `IndexError`, so for every
input text and every entity store the function raises instead of returning a
list. -/
theorem extract_entity_names_empty_name_raises (text : String) (stored : List Entity) :
    extract_entity_names text [{ name := "" }] stored
      = Except.error "IndexError: list index out of range" := rfl
